import Mathlib

/-!
Shallow embedding of the order-pricing and order-retrieval core of the
Django e-commerce tutorial repository (api/models.py, api/serializers.py,
api/filters.py, api/views.py), together with theorems settling the frozen
claims about it.

Money: the source stores prices in `DecimalField(max_digits=10,
decimal_places=2)` and manipulates them as Python `Decimal` values, which
are exact for two-decimal-place amounts.  We embed such a value as an
integer count of hundredths (`cents`); multiplication by an integer
quantity and addition are exact in this representation, exactly as they
are for Python `Decimal`.
-/

/-- A fixed-point decimal with two decimal places, the embedding of a
Python `Decimal` value of a `DecimalField(decimal_places=2)`:
`cents` is the amount in hundredths, so `⟨1999⟩` is `19.99`. -/
structure Decimal where
  cents : Int
deriving DecidableEq, Repr

/-- The exact rational value of a `Decimal`. -/
def Decimal.toRat (d : Decimal) : Rat := (d.cents : Rat) / 100

/-- `Decimal` multiplication by a natural-number quantity
(`Decimal * int` in Python, exact). -/
def Decimal.mulNat (d : Decimal) (n : Nat) : Decimal := ⟨d.cents * n⟩

/-- `Decimal` addition (`Decimal + Decimal` in Python, exact). -/
def Decimal.add (a b : Decimal) : Decimal := ⟨a.cents + b.cents⟩

/-- `Order.StatusChoices` from api/models.py. -/
inductive StatusChoices where
  | pending
  | confirmed
  | cancelled
deriving DecidableEq, Repr

/-- The custom `User` model from api/models.py: `AbstractUser` supplies
`id` and the `is_staff` flag (the elevated role). -/
structure User where
  id : Nat
  is_staff : Bool
deriving DecidableEq, Repr

/-- The `Product` model from api/models.py. -/
structure Product where
  id : Nat
  name : String
  description : String
  price : Decimal
  stock : Nat
deriving DecidableEq, Repr

/-- `Product.in_stock`, the derived property `self.stock > 0`. -/
def Product.in_stock (p : Product) : Bool := decide (0 < p.stock)

/-- The `Order` model from api/models.py: `order_id` stands for the UUID
primary key (an opaque token), `user` is the owner's id (the `ForeignKey`
to `User`), `created_at` is the creation timestamp. -/
structure Order where
  order_id : Nat
  user : Nat
  created_at : Nat
  status : StatusChoices
deriving DecidableEq, Repr

/-- The `OrderItem` join model from api/models.py: `order` is the parent
order's id, `product` the related product (the `ForeignKey`, materialized),
`quantity` a `PositiveIntegerField` (which in Django admits any value ≥ 0). -/
structure OrderItem where
  order : Nat
  product : Product
  quantity : Nat
deriving DecidableEq, Repr

/-- `OrderItem.item_subtotal` from api/models.py:
`return self.product.price * self.quantity`. -/
def OrderItem.item_subtotal (i : OrderItem) : Decimal :=
  i.product.price.mulNat i.quantity

/-- An order together with its materialized items
(`obj` with `obj.items.all()` in the serializer). -/
structure OrderWithItems where
  order : Order
  items : List OrderItem
deriving DecidableEq, Repr

/-- `OrderSerializer.get_total_price` from api/serializers.py:
`return sum(item.item_subtotal for item in order_items)` — Python's `sum`
folds `+` from the left starting at `0`. -/
def OrderSerializer.get_total_price (obj : OrderWithItems) : Decimal :=
  (obj.items.map OrderItem.item_subtotal).foldl Decimal.add ⟨0⟩

/-- `ProductSerializer.validate_price` from api/serializers.py:
`if value <= 0: raise serializers.ValidationError("Price must be grater than 0")`,
else `return value`.  The raised `ValidationError` is embedded as the
`Except.error` branch carrying the message. -/
def ProductSerializer.validate_price (value : Decimal) : Except String Decimal :=
  if value.cents ≤ 0 then Except.error "Price must be grater than 0"
  else Except.ok value

/-- The DRF generic create/update flow for products: the serializer's
`validate_price` runs during `is_valid`, and a `ValidationError` aborts the
request before `save`, so no product is written; on success the product is
written unchanged. -/
def productCreate (db : List Product) (p : Product) : Except String (List Product) :=
  match ProductSerializer.validate_price p.price with
  | Except.error e => Except.error e
  | Except.ok _ => Except.ok (db ++ [p])

/-- `OrderViewSet.get_queryset` from api/views.py:
`if not self.request.user.is_staff: qs = qs.filter(user=self.request.user)`. -/
def OrderViewSet.get_queryset (all_orders : List Order) (request_user : User) : List Order :=
  if !request_user.is_staff then
    all_orders.filter (fun o => o.user == request_user.id)
  else
    all_orders

/-- The retrieval result of DRF's `RetrieveModelMixin` for `OrderViewSet`:
`get_object` runs `get_object_or_404(self.get_queryset(), pk=...)`, so the
only failure outcome is a 404 (`notFound`); `permission_classes =
[IsAuthenticated]` performs no object-level check, so for an authenticated
principal no Forbidden outcome exists on retrieval. -/
inductive RetrieveResult where
  | ok (o : Order)
  | notFound
deriving DecidableEq, Repr

/-- `OrderViewSet`'s single-order retrieval: DRF looks the pk up inside
the already-scoped `get_queryset()` result and raises `Http404` when it is
absent from it. -/
def OrderViewSet.retrieve (all_orders : List Order) (request_user : User)
    (oid : Nat) : RetrieveResult :=
  match (OrderViewSet.get_queryset all_orders request_user).find?
      (fun o => o.order_id == oid) with
  | some o => RetrieveResult.ok o
  | none => RetrieveResult.notFound

/-- The query parameters accepted by `OrderFilter` from api/filters.py:
`fields = {'status': ['exact'], 'created_at': ['exact', 'lt', 'gt']}`;
an absent parameter imposes no constraint. -/
structure OrderFilterParams where
  status : Option StatusChoices
  created_at : Option Nat
  created_at_lt : Option Nat
  created_at_gt : Option Nat
deriving DecidableEq, Repr

/-- Whether an order satisfies every supplied `OrderFilter` parameter
(django-filter combines the field lookups by logical AND). -/
def OrderFilter.matches (params : OrderFilterParams) (o : Order) : Bool :=
  (match params.status with
   | none => true
   | some s => o.status == s) &&
  (match params.created_at with
   | none => true
   | some t => o.created_at == t) &&
  (match params.created_at_lt with
   | none => true
   | some t => decide (o.created_at < t)) &&
  (match params.created_at_gt with
   | none => true
   | some t => decide (t < o.created_at))

/-- `DjangoFilterBackend` applying `OrderFilter` to a queryset. -/
def OrderFilter.filter_queryset (params : OrderFilterParams)
    (qs : List Order) : List Order :=
  qs.filter (OrderFilter.matches params)

/-- `listOrders` as wired in `OrderViewSet` (`filter_backends =
[DjangoFilterBackend]`, `filterset_class = OrderFilter`): DRF's `list`
applies the filter backend to the result of `get_queryset()`. -/
def OrderViewSet.list (all_orders : List Order) (request_user : User)
    (params : OrderFilterParams) : List Order :=
  OrderFilter.filter_queryset params
    (OrderViewSet.get_queryset all_orders request_user)

/-- `InStockFilterBackend.filter_queryset` from api/filters.py:
`return queryset.filter(stock__gt=0)`. -/
def InStockFilterBackend.filter_queryset (queryset : List Product) : List Product :=
  queryset.filter (fun p => decide (0 < p.stock))

/-- Case-insensitive substring test, the embedding of the SQL
`ILIKE %sub%` lookup behind django-filter's `icontains`. -/
def strIContains (s sub : String) : Bool :=
  (List.range (s.length + 1)).any
    (fun i => sub.toLower.isPrefixOf (s.toLower.drop i))

/-- The query parameters accepted by `ProductFilter` from api/filters.py:
`fields = {'name': ['iexact', 'icontains'], 'price': ['exact', 'lt', 'gt', 'range']}`;
an absent parameter imposes no constraint. -/
structure ProductFilterParams where
  name_iexact : Option String
  name_icontains : Option String
  price : Option Decimal
  price_lt : Option Decimal
  price_gt : Option Decimal
  price_range : Option (Decimal × Decimal)
deriving DecidableEq, Repr

/-- Whether a product satisfies every supplied `ProductFilter` parameter;
`range` is the SQL `BETWEEN` lookup, inclusive at both bounds. -/
def ProductFilter.matches (params : ProductFilterParams) (p : Product) : Bool :=
  (match params.name_iexact with
   | none => true
   | some s => p.name.toLower == s.toLower) &&
  (match params.name_icontains with
   | none => true
   | some s => strIContains p.name s) &&
  (match params.price with
   | none => true
   | some v => p.price == v) &&
  (match params.price_lt with
   | none => true
   | some v => decide (p.price.cents < v.cents)) &&
  (match params.price_gt with
   | none => true
   | some v => decide (v.cents < p.price.cents)) &&
  (match params.price_range with
   | none => true
   | some lohi => decide (lohi.1.cents ≤ p.price.cents) &&
                  decide (p.price.cents ≤ lohi.2.cents))

/-- `DjangoFilterBackend` applying `ProductFilter` to a queryset. -/
def ProductFilter.filter_queryset (params : ProductFilterParams)
    (qs : List Product) : List Product :=
  qs.filter (ProductFilter.matches params)

/-- The filter-backend classes named in api/views.py. -/
inductive FilterBackendRef where
  | djangoFilterBackend
  | searchFilter
  | orderingFilter
  | inStockFilterBackend
deriving DecidableEq, Repr

/-- The class attribute literally spelled `filter_backend` (singular) on
`ProductListCreateAPIView` in api/views.py:
`filter_backend = [DjangoFilterBackend, filters.SearchFilter,
filters.OrderingFilter, InStockFilterBackend]`. -/
def ProductListCreateAPIView.filter_backend : List FilterBackendRef :=
  [FilterBackendRef.djangoFilterBackend, FilterBackendRef.searchFilter,
   FilterBackendRef.orderingFilter, FilterBackendRef.inStockFilterBackend]

/-- The attribute DRF's `GenericAPIView.filter_queryset` actually reads is
`filter_backends` (plural).  `ProductListCreateAPIView` never assigns it
(only the unread `filter_backend` above), so the inherited default applies;
no default filter backends are configured anywhere in the repository, so
the effective backend list is empty. -/
def ProductListCreateAPIView.filter_backends : List FilterBackendRef := []

/-- One filter backend applied to a product queryset.  `SearchFilter` and
`OrderingFilter` are identities here: the view only sets the unread
`search_field`/`ordering_field` attributes (DRF reads `search_fields` and
`ordering_fields`), so neither backend has any field to act on. -/
def applyProductBackend (params : ProductFilterParams)
    (qs : List Product) (b : FilterBackendRef) : List Product :=
  match b with
  | FilterBackendRef.djangoFilterBackend => ProductFilter.filter_queryset params qs
  | FilterBackendRef.searchFilter => qs
  | FilterBackendRef.orderingFilter => qs
  | FilterBackendRef.inStockFilterBackend => InStockFilterBackend.filter_queryset qs

/-- Insertion step for `order_by('pk')`. -/
def insertByPk (p : Product) : List Product → List Product
  | [] => [p]
  | q :: qs => if p.id ≤ q.id then p :: q :: qs else q :: insertByPk p qs

/-- `Product.objects.order_by('pk')`, the view's base queryset. -/
def order_by_pk (db : List Product) : List Product :=
  db.foldr insertByPk []

/-- `GenericAPIView.filter_queryset` for `ProductListCreateAPIView`: fold
the effective `filter_backends` over the queryset. -/
def ProductListCreateAPIView.filter_queryset (params : ProductFilterParams)
    (qs : List Product) : List Product :=
  ProductListCreateAPIView.filter_backends.foldl (applyProductBackend params) qs

/-- The GET handler of `ProductListCreateAPIView` (pagination aside):
DRF's `ListAPIView.list` serializes `filter_queryset(get_queryset())`. -/
def ProductListCreateAPIView.list (db : List Product)
    (params : ProductFilterParams) : List Product :=
  ProductListCreateAPIView.filter_queryset params (order_by_pk db)

/-- One step of the SQL `MAX` aggregate over prices. -/
def maxPriceStep (acc : Option Decimal) (p : Product) : Option Decimal :=
  match acc with
  | none => some p.price
  | some m => some (if m.cents < p.price.cents then p.price else m)

/-- `products.aggregate(max_price=Max('price'))['max_price']` from
api/views.py: SQL `MAX` over an empty set is `NULL`, surfaced as `None`. -/
def aggregate_max_price (products : List Product) : Option Decimal :=
  products.foldl maxPriceStep none

/-- The dictionary shape serialized by `ProductInfoSerializer`. -/
structure ProductInfo where
  products : List Product
  count : Nat
  max_price : Option Decimal
deriving DecidableEq, Repr

/-- `ProductInfoAPIView.get` from api/views.py: all products, their count
(`len(products)`), and the aggregate max price. -/
def ProductInfoAPIView.get (db : List Product) : ProductInfo :=
  { products := db
    count := db.length
    max_price := aggregate_max_price db }

/-! Concrete fixtures used to instantiate the theorems below. -/

/-- A standard (non-staff) user with id 1. -/
def user1Std : User := { id := 1, is_staff := false }

/-- A standard (non-staff) user with id 2. -/
def user2Std : User := { id := 2, is_staff := false }

/-- A staff (elevated) user. -/
def adminUser : User := { id := 9, is_staff := true }

/-- An order owned by user 1. -/
def orderOfUser1 : Order :=
  { order_id := 7, user := 1, created_at := 5, status := StatusChoices.pending }

/-- An order owned by user 2. -/
def orderOfUser2 : Order :=
  { order_id := 8, user := 2, created_at := 6, status := StatusChoices.confirmed }

/-- A two-owner order table. -/
def sampleOrders : List Order := [orderOfUser1, orderOfUser2]

/-- A product priced 19.99 with stock 3. -/
def productA : Product :=
  { id := 1, name := "a", description := "", price := ⟨1999⟩, stock := 3 }

/-- A product with a negative price (-1.00), representable because the
model layer places no sign constraint on `DecimalField`. -/
def negativePriceProduct : Product :=
  { id := 2, name := "b", description := "", price := ⟨-100⟩, stock := 1 }

/-- A line item of 2 × the negative-priced product. -/
def negativePriceItem : OrderItem :=
  { order := 7, product := negativePriceProduct, quantity := 2 }

/-- A line item with quantity 0 (admitted by `PositiveIntegerField`,
which allows 0). -/
def zeroQuantityItem : OrderItem :=
  { order := 7, product := productA, quantity := 0 }

/-- An order with no items. -/
def emptyOrderW : OrderWithItems := { order := orderOfUser1, items := [] }

/-- A product with stock 0. -/
def outOfStockProduct : Product :=
  { id := 4, name := "oos", description := "", price := ⟨500⟩, stock := 0 }

/-- A product priced 0.00. -/
def freePriceProduct : Product :=
  { id := 5, name := "free", description := "", price := ⟨0⟩, stock := 1 }

/-- A product priced 9.99. -/
def product999 : Product :=
  { id := 6, name := "p9", description := "", price := ⟨999⟩, stock := 1 }

/-- A product priced 10.00. -/
def product1000 : Product :=
  { id := 7, name := "p10", description := "", price := ⟨1000⟩, stock := 1 }

/-- Query parameters with no product filter supplied. -/
def noProductFilterParams : ProductFilterParams :=
  { name_iexact := none, name_icontains := none, price := none,
    price_lt := none, price_gt := none, price_range := none }

/-- Query parameters supplying only a price range. -/
def rangeOnlyParams (lo hi : Decimal) : ProductFilterParams :=
  { name_iexact := none, name_icontains := none, price := none,
    price_lt := none, price_gt := none, price_range := some (lo, hi) }

/-- Order query parameters filtering on `status=Pending` only. -/
def statusFilterParams : OrderFilterParams :=
  { status := some StatusChoices.pending, created_at := none,
    created_at_lt := none, created_at_gt := none }

/-! Helper lemmas shared by the claim theorems. -/

/-- Membership in the scoped order queryset. -/
theorem mem_get_queryset (db : List Order) (u : User) (o : Order) :
    o ∈ OrderViewSet.get_queryset db u ↔
      o ∈ db ∧ (u.is_staff = false → o.user = u.id) := by
  unfold OrderViewSet.get_queryset
  cases h : u.is_staff with
  | false => simp [h]
  | true => simp [h]

/-- Two `List.filter` passes commute. -/
theorem filter_comm_helper {α : Type} (p q : α → Bool) (l : List α) :
    (l.filter p).filter q = (l.filter q).filter p := by
  induction l with
  | nil => rfl
  | cons x xs ih =>
    cases hp : p x <;> cases hq : q x <;> simp [List.filter, hp, hq, ih]

/-- The rational value of a left fold of `Decimal.add`. -/
theorem foldl_decimal_add_toRat (l : List Decimal) (init : Decimal) :
    (l.foldl Decimal.add init).toRat = init.toRat + (l.map Decimal.toRat).sum := by
  induction l generalizing init with
  | nil => simp
  | cons x xs ih =>
    simp only [List.foldl_cons, List.map_cons, List.sum_cons, ih]
    unfold Decimal.add Decimal.toRat
    push_cast
    ring

/-- A defined `MAX` aggregate value is one of the folded prices or the seed. -/
theorem aggregate_max_price_mem (db : List Product) :
    ∀ acc m, db.foldl maxPriceStep acc = some m →
      m ∈ db.map Product.price ∨ acc = some m := by
  induction db with
  | nil =>
    intro acc m h
    right
    exact h
  | cons p t ih =>
    intro acc m h
    simp only [List.foldl_cons] at h
    rcases ih (maxPriceStep acc p) m h with hmem | hacc
    · left
      simp only [List.map_cons, List.mem_cons]
      right
      exact hmem
    · cases acc with
      | none =>
        left
        unfold maxPriceStep at hacc
        injection hacc with h2
        simp [← h2]
      | some a =>
        unfold maxPriceStep at hacc
        injection hacc with h2
        by_cases hc : a.cents < p.price.cents
        · rw [if_pos hc] at h2
          left
          simp [← h2]
        · rw [if_neg hc] at h2
          right
          rw [h2]

/-- The `MAX` aggregate value bounds every folded price and the seed. -/
theorem aggregate_max_price_ub (db : List Product) :
    ∀ acc m, db.foldl maxPriceStep acc = some m →
      (∀ p ∈ db, p.price.cents ≤ m.cents) ∧
      (∀ a, acc = some a → a.cents ≤ m.cents) := by
  induction db with
  | nil =>
    intro acc m h
    refine ⟨by simp, ?_⟩
    intro a ha
    rw [ha] at h
    injection h with h2
    rw [h2]
  | cons p t ih =>
    intro acc m h
    simp only [List.foldl_cons] at h
    have ihm := ih (maxPriceStep acc p) m h
    constructor
    · intro q hq
      rcases List.mem_cons.mp hq with rfl | hqt
      · cases acc with
        | none => exact ihm.2 q.price rfl
        | some a =>
          have hb := ihm.2 (if a.cents < q.price.cents then q.price else a) rfl
          by_cases hc : a.cents < q.price.cents
          · rw [if_pos hc] at hb
            exact hb
          · rw [if_neg hc] at hb
            omega
      · exact ihm.1 q hqt
    · intro a ha
      have hb := ihm.2 (if a.cents < p.price.cents then p.price else a)
        (by rw [ha]; rfl)
      by_cases hc : a.cents < p.price.cents
      · rw [if_pos hc] at hb
        omega
      · rw [if_neg hc] at hb
        exact hb

/-- The `MAX` aggregate fold is `none` only on the empty table with seed `none`. -/
theorem aggregate_max_price_none (db : List Product) :
    ∀ acc, db.foldl maxPriceStep acc = none → acc = none ∧ db = [] := by
  induction db with
  | nil =>
    intro acc h
    exact ⟨h, rfl⟩
  | cons p t ih =>
    intro acc h
    simp only [List.foldl_cons] at h
    have hstep := ih (maxPriceStep acc p) h
    exfalso
    cases acc <;> simp [maxPriceStep] at hstep

/-! Claim theorems. -/

/-- C1: for every non-staff principal, every order in the scoped order
queryset is owned by that principal; for a staff (elevated) principal the
queryset is the unrestricted order table. -/
theorem listOrders_owner_scoped (db : List Order) (u : User) (o : Order) :
    (u.is_staff = false → o ∈ OrderViewSet.get_queryset db u → o.user = u.id) ∧
    (u.is_staff = true → OrderViewSet.get_queryset db u = db) := by
  constructor
  · intro hs hm
    rw [mem_get_queryset] at hm
    exact hm.2 hs
  · intro hs
    unfold OrderViewSet.get_queryset
    simp [hs]

/-- C1 witness: user 1 owns the one order a non-staff listing returns, and
the staff listing over a two-owner table is unrestricted. -/
theorem listOrders_owner_scoped_witness :
    orderOfUser1.user = user1Std.id ∧
    OrderViewSet.get_queryset sampleOrders adminUser = sampleOrders :=
  ⟨(listOrders_owner_scoped sampleOrders user1Std orderOfUser1).1 rfl (by decide),
   (listOrders_owner_scoped sampleOrders adminUser orderOfUser1).2 rfl⟩

/-- C2: `item_subtotal` is the exact decimal product of the product price
and the quantity (its rational value is exactly price × quantity), and in
particular price 19.99 with quantity 2 gives exactly 39.98. -/
theorem item_subtotal_exact (i : OrderItem) :
    (OrderItem.item_subtotal i).toRat
      = i.product.price.toRat * (i.quantity : Rat) ∧
    OrderItem.item_subtotal { order := 7, product := productA, quantity := 2 }
      = ⟨3998⟩ := by
  constructor
  · unfold OrderItem.item_subtotal Decimal.mulNat Decimal.toRat
    push_cast
    ring
  · decide

/-- C3: `get_total_price` is the exact decimal sum of the items'
subtotals (its rational value is exactly the sum of the subtotals'
rational values), and an order with no items has total 0. -/
theorem get_total_price_exact (obj : OrderWithItems) :
    (OrderSerializer.get_total_price obj).toRat
      = (obj.items.map (fun i => (OrderItem.item_subtotal i).toRat)).sum ∧
    (obj.items = [] → OrderSerializer.get_total_price obj = ⟨0⟩) := by
  constructor
  · unfold OrderSerializer.get_total_price
    rw [foldl_decimal_add_toRat]
    simp only [Decimal.toRat, List.map_map]
    norm_num
    rfl
  · intro h
    unfold OrderSerializer.get_total_price
    rw [h]
    rfl

/-- C3 witness: the total price of a concrete order with no items is 0. -/
theorem get_total_price_exact_witness :
    OrderSerializer.get_total_price emptyOrderW = ⟨0⟩ :=
  (get_total_price_exact emptyOrderW).2 rfl

/-- C5: the pricing code performs no input validation and has no error
outcome: a line item with negative price yields the negative subtotal
-2.00, one with quantity 0 yields subtotal 0.00, and the order total
silently sums such values — no `InvalidLineItem` condition exists. -/
theorem pricing_engine_no_invalid_line_item :
    OrderItem.item_subtotal negativePriceItem = ⟨-200⟩ ∧
    OrderItem.item_subtotal zeroQuantityItem = ⟨0⟩ ∧
    OrderSerializer.get_total_price
      { order := orderOfUser1, items := [negativePriceItem] } = ⟨-200⟩ := by
  decide

/-- C4: the in-stock predicate is never applied by the public product
listing: a product with stock 0 is returned by the listing, even though
`InStockFilterBackend` would remove it; the backend is named only in the
unread `filter_backend` attribute and is absent from the effective
`filter_backends` list. -/
theorem in_stock_predicate_not_applied :
    outOfStockProduct.stock = 0 ∧
    ProductListCreateAPIView.list [outOfStockProduct] noProductFilterParams
      = [outOfStockProduct] ∧
    InStockFilterBackend.filter_queryset [outOfStockProduct] = [] ∧
    FilterBackendRef.inStockFilterBackend ∈ ProductListCreateAPIView.filter_backend ∧
    FilterBackendRef.inStockFilterBackend ∉ ProductListCreateAPIView.filter_backends := by
  decide

/-- C6 counterexample: order 7 exists and is owned by user 1, yet the
non-staff, non-owner user 2 retrieving it gets `notFound` — the same
outcome as retrieving the nonexistent order 999 — not a distinct
Forbidden result. -/
theorem getOrder_foreign_order_not_forbidden :
    orderOfUser1.order_id = 7 ∧
    user2Std.is_staff = false ∧
    orderOfUser1.user ≠ user2Std.id ∧
    OrderViewSet.retrieve [orderOfUser1] user2Std 7 = RetrieveResult.notFound ∧
    OrderViewSet.retrieve [orderOfUser1] user2Std 999 = RetrieveResult.notFound := by
  decide

/-- C6 amended: retrieval returns `notFound` both when no order with the
requested id exists and when such an order exists but the principal is
neither its owner nor staff; it returns an order only when that order is
in the table, has the requested id, and the principal is staff or the
owner; and whenever an accessible order with the id exists, retrieval
succeeds. -/
theorem getOrder_amended (db : List Order) (u : User) (oid : Nat) :
    ((∀ o ∈ db, o.order_id = oid → u.is_staff = false ∧ o.user ≠ u.id) →
      OrderViewSet.retrieve db u oid = RetrieveResult.notFound) ∧
    (∀ o, OrderViewSet.retrieve db u oid = RetrieveResult.ok o →
      o ∈ db ∧ o.order_id = oid ∧ (u.is_staff = true ∨ o.user = u.id)) ∧
    ((∃ o ∈ db, o.order_id = oid ∧ (u.is_staff = true ∨ o.user = u.id)) →
      ∃ o, OrderViewSet.retrieve db u oid = RetrieveResult.ok o) := by
  refine ⟨?_, ?_, ?_⟩
  · intro H
    unfold OrderViewSet.retrieve
    cases hf : (OrderViewSet.get_queryset db u).find? (fun o => o.order_id == oid) with
    | none => rfl
    | some o =>
      exfalso
      have hp := List.find?_some hf
      have hm := List.mem_of_find?_eq_some hf
      rw [mem_get_queryset] at hm
      have hid : o.order_id = oid := by simpa using hp
      have hH := H o hm.1 hid
      exact hH.2 (hm.2 hH.1)
  · intro o ho
    unfold OrderViewSet.retrieve at ho
    cases hf : (OrderViewSet.get_queryset db u).find? (fun x => x.order_id == oid) with
    | none =>
      rw [hf] at ho
      exact absurd ho (by simp)
    | some o2 =>
      rw [hf] at ho
      injection ho with ho2
      subst ho2
      have hp := List.find?_some hf
      have hm := List.mem_of_find?_eq_some hf
      rw [mem_get_queryset] at hm
      refine ⟨hm.1, by simpa using hp, ?_⟩
      cases hs : u.is_staff with
      | true => exact Or.inl rfl
      | false => exact Or.inr (hm.2 hs)
  · rintro ⟨o, hmem, hid, hacc⟩
    unfold OrderViewSet.retrieve
    cases hf : (OrderViewSet.get_queryset db u).find? (fun x => x.order_id == oid) with
    | some o2 => exact ⟨o2, rfl⟩
    | none =>
      exfalso
      have hqs : o ∈ OrderViewSet.get_queryset db u := by
        rw [mem_get_queryset]
        refine ⟨hmem, ?_⟩
        intro hsf
        rcases hacc with hstaff | hown
        · rw [hsf] at hstaff
          exact absurd hstaff (by simp)
        · exact hown
      have hnone := List.find?_eq_none.mp hf o hqs
      exact hnone (by simp [hid])

/-- C6 amended witness: retrieving another user's order yields `notFound`,
and the owner retrieves it successfully. -/
theorem getOrder_amended_witness :
    OrderViewSet.retrieve [orderOfUser1] user2Std 7 = RetrieveResult.notFound ∧
    OrderViewSet.retrieve [orderOfUser1] user1Std 7 = RetrieveResult.ok orderOfUser1 :=
  ⟨(getOrder_amended [orderOfUser1] user2Std 7).1 (by decide), by decide⟩

/-- C7: product input with price ≤ 0 is rejected by a `ValidationError`
and nothing is written; with price > 0 the validator accepts the price
unchanged and the product is written. -/
theorem validate_price_gate (db : List Product) (p : Product) :
    (p.price.cents ≤ 0 →
      productCreate db p = Except.error "Price must be grater than 0") ∧
    (0 < p.price.cents →
      ProductSerializer.validate_price p.price = Except.ok p.price ∧
      productCreate db p = Except.ok (db ++ [p])) := by
  constructor
  · intro h
    unfold productCreate ProductSerializer.validate_price
    simp [h]
  · intro h
    have h2 : ¬ p.price.cents ≤ 0 := by omega
    unfold productCreate ProductSerializer.validate_price
    simp [h2]

/-- C7 witness: a price-0.00 product is rejected, a price-19.99 product
is created. -/
theorem validate_price_gate_witness :
    productCreate [] freePriceProduct = Except.error "Price must be grater than 0" ∧
    productCreate [] productA = Except.ok [productA] :=
  ⟨(validate_price_gate [] freePriceProduct).1 (by decide),
   ((validate_price_gate [] productA).2 (by decide)).2⟩

/-- C8: applying the order filter after owner scoping gives the same list
as applying owner scoping after the filter, and every order in the final
result is in the table, satisfies every supplied filter predicate, and
satisfies the scope condition. -/
theorem scope_filter_commute (db : List Order) (u : User) (params : OrderFilterParams) :
    OrderViewSet.list db u params
      = OrderViewSet.get_queryset (OrderFilter.filter_queryset params db) u ∧
    ∀ o, o ∈ OrderViewSet.list db u params →
      o ∈ db ∧ OrderFilter.matches params o = true ∧
      (u.is_staff = false → o.user = u.id) := by
  constructor
  · unfold OrderViewSet.list OrderFilter.filter_queryset OrderViewSet.get_queryset
    cases h : u.is_staff with
    | true => simp [h]
    | false =>
      simp only [h, Bool.not_false, if_pos]
      exact filter_comm_helper (fun o => o.user == u.id) (OrderFilter.matches params) db
  · intro o ho
    unfold OrderViewSet.list OrderFilter.filter_queryset at ho
    rw [List.mem_filter] at ho
    obtain ⟨h1, h2⟩ := ho
    rw [mem_get_queryset] at h1
    exact ⟨h1.1, h2, h1.2⟩

/-- C8 witness: in the filtered scoped listing for user 1 with a
`status=Pending` filter, the returned order is in the table and matches
the filter. -/
theorem scope_filter_commute_witness :
    orderOfUser1 ∈ sampleOrders ∧
    OrderFilter.matches statusFilterParams orderOfUser1 = true :=
  have h := (scope_filter_commute sampleOrders user1Std statusFilterParams).2
    orderOfUser1 (by decide)
  ⟨h.1, h.2.1⟩

/-- C9: the price range filter with bounds [lo, hi] keeps exactly the
products already in the queryset whose price satisfies lo ≤ price ≤ hi
(both bounds inclusive); with range [10.00, 50.00], a 9.99 product is
excluded and a 10.00 product is included. -/
theorem price_range_inclusive (lo hi : Decimal) (qs : List Product) (p : Product) :
    (p ∈ ProductFilter.filter_queryset (rangeOnlyParams lo hi) qs ↔
      p ∈ qs ∧ lo.cents ≤ p.price.cents ∧ p.price.cents ≤ hi.cents) ∧
    ProductFilter.matches (rangeOnlyParams ⟨1000⟩ ⟨5000⟩) product999 = false ∧
    ProductFilter.matches (rangeOnlyParams ⟨1000⟩ ⟨5000⟩) product1000 = true := by
  refine ⟨?_, by decide, by decide⟩
  unfold ProductFilter.filter_queryset ProductFilter.matches rangeOnlyParams
  simp [List.mem_filter]

/-- C10: the product-info aggregate copies the catalog and its length; on
an empty catalog it yields the empty list, count 0 and `max_price = none`;
on a non-empty catalog `max_price` is some price attained in the catalog
and bounding every product's price from above. -/
theorem product_info_assembly (db : List Product) :
    (ProductInfoAPIView.get db).products = db ∧
    (ProductInfoAPIView.get db).count = db.length ∧
    (db = [] →
      ProductInfoAPIView.get db = { products := [], count := 0, max_price := none }) ∧
    (db ≠ [] → (ProductInfoAPIView.get db).max_price ≠ none) ∧
    (∀ m, (ProductInfoAPIView.get db).max_price = some m → m ∈ db.map Product.price) ∧
    (∀ p ∈ db, ∀ m, (ProductInfoAPIView.get db).max_price = some m →
      p.price.cents ≤ m.cents) := by
  refine ⟨rfl, rfl, ?_, ?_, ?_, ?_⟩
  · intro h
    subst h
    rfl
  · intro hne hnone
    exact hne (aggregate_max_price_none db none hnone).2
  · intro m hm
    rcases aggregate_max_price_mem db none m hm with h | h
    · exact h
    · exact Option.noConfusion h
  · intro p hp m hm
    exact (aggregate_max_price_ub db none m hm).1 p hp

/-- C10 witness: the aggregate over the empty catalog is the empty result
with `max_price = none`. -/
theorem product_info_assembly_witness :
    ProductInfoAPIView.get [] = { products := [], count := 0, max_price := none } :=
  (product_info_assembly []).2.2.1 rfl
